import Mathlib

/-!
Shallow embedding of the ScholarJS article-parsing module
(`src/lib/modules/scholar_articleParser_120201.js`, holding the base class
`ScholarArticleParser` and the layout subclass `ScholarArticleParser_120201`).

Embedding conventions.  The source file is JavaScript transliterated line by
line from a Python original; Python idioms that are mere spelling are embedded
with their intended semantics:
`for (let tag in div)` iterates the node's direct children, `s.split()` is a
whitespace split, `s.split(sep, 1)` splits at the first occurrence of `sep`,
`xs[-1]` is the last element (raising IndexError on an empty list), `int(s)` is
a strict integer parse raising on failure, `endWith`/`length(xs)` stand for
`endswith`/`len`, and `tag['h3', 'a']` is soup-style nested lookup (first
descendant named h3, then its first descendant named a).  Genuine data-flow
slips are embedded exactly as written, because they change behaviour under any
executable reading of the file:
the calls `_strip_urlArg('num', this._path2url(...))` (lines 199 and 216) pass
the argument name where the helper's signature `_strip_urlArg(url, arg)`
expects the url; `numResults.split(',', '')` (line 132) passes a string where
`split` needs an integer limit, so the call raises and the enclosing catch
swallows it; the constructor assigns the year pattern to `this.year` (line 63)
while `_parse_article` of the subclass reads `this.year_re` (line 36), a field
no statement ever assigns; and line 27 re-joins the already-joined title
string, which joins the empty iterable and yields the empty string.
Fallible steps run in `Except PyErr`.
-/

/-- Errors that the embedded Python-style operations can raise. -/
inductive PyErr where
  | indexError
  | typeError
  | attributeError
  | keyError
deriving Repr, DecidableEq

/-- A dynamically typed value, used where the source passes a value whose type
decides behaviour (the second argument of `split` on line 132). -/
inductive PyVal where
  | int (n : Int)
  | str (s : String)
deriving Repr, DecidableEq

/-- Accumulator-based whitespace split of a character list: splits on runs of
whitespace and drops empty pieces, as Python's no-argument `str.split()` does. -/
def chSplitWsAux : List Char → List Char → List (List Char)
  | [], acc => if acc.isEmpty then [] else [acc.reverse]
  | c :: cs, acc =>
    if c.isWhitespace then
      if acc.isEmpty then chSplitWsAux cs [] else acc.reverse :: chSplitWsAux cs []
    else chSplitWsAux cs (c :: acc)

/-- Python `s.split()`: split on whitespace runs, no empty pieces. -/
def splitWs (s : String) : List String := (chSplitWsAux s.data []).map String.mk

/-- Split a character list at the first occurrence of `sep`:
`none` when `sep` does not occur, otherwise the pieces before and after it. -/
def chSplitFirst (sep : Char) : List Char → Option (List Char × List Char)
  | [] => none
  | c :: cs =>
    if c == sep then some ([], cs)
    else
      match chSplitFirst sep cs with
      | none => none
      | some (pre, post) => some (c :: pre, post)

/-- Whether `sep` occurs in the list (via `chSplitFirst`, which finds the first
occurrence). -/
def chContains (sep : Char) (l : List Char) : Bool := (chSplitFirst sep l).isSome

/-- Python `s.split(sep, 1)`: a one-element list when `sep` does not occur in
`s`, otherwise the two pieces around its first occurrence. -/
def pySplit1 (s : String) (sep : Char) : List String :=
  match chSplitFirst sep s.data with
  | none => [s]
  | some (pre, post) => [String.mk pre, String.mk post]

/-- Full split of a character list on `sep`, keeping empty pieces, as Python's
`str.split(sep)` does: `chSplitAll '&' "a&&b".data = ["a","","b"].data`-wise. -/
def chSplitAll (sep : Char) : List Char → List (List Char)
  | [] => [[]]
  | c :: cs =>
    if c == sep then [] :: chSplitAll sep cs
    else
      match chSplitAll sep cs with
      | [] => [[c]]
      | w :: ws => (c :: w) :: ws

/-- Python `s.split(sep)` for a one-character separator. -/
def splitAllStr (s : String) (sep : Char) : List String :=
  (chSplitAll sep s.data).map String.mk

/-- Python bounded split `s.split(sep, k)`: at most `k` splits are performed. -/
def chSplitBounded (sep : Char) : Nat → List Char → List (List Char)
  | _, [] => [[]]
  | 0, l => [l]
  | Nat.succ k, c :: cs =>
    if c == sep then [] :: chSplitBounded sep k cs
    else
      match chSplitBounded sep (Nat.succ k) cs with
      | [] => [[c]]
      | w :: ws => (c :: w) :: ws

/-- Python `s.split(sep, limit)` with a dynamically typed limit: `str.split`
requires an integer maxsplit, so a non-integer limit raises TypeError.  Line
132 of the source calls `split(',', '')`, hitting the TypeError arm.  (A
negative integer limit in Python means unbounded; it does not occur in the
source, and is embedded as a large bound.) -/
def pySplitLimited (s : String) (sep : Char) (limit : PyVal) : Except PyErr (List String) :=
  match limit with
  | PyVal.int n =>
    Except.ok ((chSplitBounded sep (if n < 0 then s.data.length else n.toNat) s.data).map String.mk)
  | PyVal.str _ => Except.error PyErr.typeError

/-- Python `int` applied to a list (line 133 applies `int` to the result of a
`split` call): raises TypeError regardless of the list's content. -/
def pyIntOfList (_ : List String) : Except PyErr Int := Except.error PyErr.typeError

/-- Python `s.startswith(pre)`. -/
def pyStartsWith (s pre : String) : Bool := pre.data.isPrefixOf s.data

/-- Python `s.endswith(suf)` (spelled `endWith` in the source, lines 30/161). -/
def pyEndsWith (s suf : String) : Bool := suf.data.isSuffixOf s.data

/-- Strip leading and trailing whitespace from a character list. -/
def chStrip (l : List Char) : List Char :=
  ((l.dropWhile Char.isWhitespace).reverse.dropWhile Char.isWhitespace).reverse

/-- Python `s.strip()` (used by `_clean_article`, line 111). -/
def pyStrip (s : String) : String := String.mk (chStrip s.data)

/-- Accumulate the value of a digit-only character list; `none` if any
character is not a decimal digit. -/
def chDigitsValAux : List Char → Nat → Option Nat
  | [], acc => some acc
  | c :: cs, acc =>
    if c.isDigit then chDigitsValAux cs (acc * 10 + (c.toNat - '0'.toNat)) else none

/-- Python `int(s)` as a total function: `some` of the value for an optionally
signed decimal literal, `none` where `int` would raise.  (Python also accepts
surrounding whitespace; the source only ever feeds it whitespace-split
tokens, which carry none.) -/
def parseIntStrict (s : String) : Option Int :=
  match s.data with
  | [] => none
  | '-' :: rest =>
    if rest.isEmpty then none else (chDigitsValAux rest 0).map (fun n => -(n : Int))
  | '+' :: rest =>
    if rest.isEmpty then none else (chDigitsValAux rest 0).map (fun n => (n : Int))
  | l => (chDigitsValAux l 0).map (fun n => (n : Int))

/-- Python `sep.join(iterable)` where the iterable is a string: concatenates
the string's characters, one-character strings, separated by `sep`.  Line 27 of
the source calls it as `title.join('')`: the title is the separator and the
iterable is empty, so the result is always the empty string. -/
def pyStrJoin (sep iter : String) : String :=
  String.intercalate sep (iter.data.map (fun c => String.mk [c]))

/-- Turn an `Except` into an `Option`, forgetting which error occurred (the
shape of a Python `try` whose `catch` swallows every exception, as the one in
`_parse_globals`, lines 130-141, does: its `catch (e)` body merely chooses
whether to `return {}` and otherwise falls through, so no error escapes). -/
def exceptToOption {α : Type} : Except PyErr α → Option α
  | Except.ok a => some a
  | Except.error _ => none

/-- Whether an `Except` computation succeeded. -/
def exceptIsOk {α : Type} : Except PyErr α → Bool
  | Except.ok _ => true
  | Except.error _ => false

/-- An attribute value in the soup tree: either a plain string or a pre-split
list of strings (the soup adapter may deliver the `class` attribute either
way; `_tag_hasClass`, lines 228-235, handles both). -/
inductive AttrVal where
  | str (s : String)
  | list (l : List String)
deriving Repr, DecidableEq

/-- A node of the soup tree, the external HTML adapter's data model as the
spec describes it (a name, attributes, ordered children; text nodes have no
name).  Modelled from the spec: the soup adapter itself
(`scholar_soup.js`) is not under `src/`. -/
inductive Node where
  | text (s : String)
  | elem (name : String) (attrs : List (String × AttrVal)) (children : List Node)
deriving Repr

/-- The node's tag name; `none` for text nodes (the source skips children with
`!tag.hasOwnProperty('name')`). -/
def nodeName : Node → Option String
  | Node.text _ => none
  | Node.elem n _ _ => some n

/-- Direct children of a node (what `for (let tag in div)` iterates). -/
def childrenOf : Node → List Node
  | Node.text _ => []
  | Node.elem _ _ cs => cs

/-- Attribute lookup on a node; `none` when absent (JS-style
`tag['href'] == undefined`). -/
def getAttr (t : Node) (key : String) : Option AttrVal :=
  match t with
  | Node.text _ => none
  | Node.elem _ attrs _ => (attrs.find? (fun p => p.1 == key)).map (fun p => p.2)

/-- Attribute lookup expecting a plain string value. -/
def getAttrStr (t : Node) (key : String) : Option String :=
  match getAttr t key with
  | some (AttrVal.str s) => some s
  | _ => none

/-- Attribute lookup that raises KeyError when the attribute is absent
(Python-style `tag['href']`, used for the title link's href where the source
has checked the tag but not the attribute). -/
def pyAttr (t : Node) (key : String) : Except PyErr String :=
  match getAttrStr t key with
  | some s => Except.ok s
  | none => Except.error PyErr.keyError

mutual
/-- A node (when it is an element satisfying `p`) followed by its matching
element descendants, in document order: the per-node half of the soup
adapter's recursive `findAll`. -/
def findAllInNode (p : Node → Bool) : Node → List Node
  | Node.text _ => []
  | Node.elem n ats ch =>
    (if p (Node.elem n ats ch) then [Node.elem n ats ch] else []) ++ findAllNodesList p ch
/-- All element descendants (document order, a node before its own
descendants) of the nodes in the list that satisfy `p`; text nodes are never
returned.  This is the soup adapter's recursive `findAll` over a node's
subtrees. -/
def findAllNodesList (p : Node → Bool) : List Node → List Node
  | [] => []
  | c :: cs => findAllInNode p c ++ findAllNodesList p cs
end

/-- All matching element descendants of `root` (the root itself excluded, as
for the soup document object). -/
def findAllNodes (p : Node → Bool) (root : Node) : List Node :=
  findAllNodesList p (childrenOf root)

/-- First matching element descendant, or `none` (the soup adapter's `find`). -/
def findFirstNode (p : Node → Bool) (root : Node) : Option Node :=
  (findAllNodes p root).head?

/-- Soup-style `tag.h3`: the first descendant element with the given name. -/
def tagFind (nm : String) (t : Node) : Option Node :=
  findFirstNode (fun n => nodeName n == some nm) t

mutual
/-- The soup adapter's `findAll(string = true)`: all descendant text
fragments of a node (the fragment itself for a text node). -/
def nodeTexts : Node → List String
  | Node.text s => [s]
  | Node.elem _ _ ch => nodeTextsList ch
/-- All descendant text fragments of the nodes in the list, in document
order. -/
def nodeTextsList : List Node → List String
  | [] => []
  | c :: cs => nodeTexts c ++ nodeTextsList cs
end

/-- Soup-style `tag.string` (`tag.hasOwnProperty('string')` in the source):
the node's text when it wraps a single chain of single children ending in a
text node, `none` otherwise. -/
def stringOf : Node → Option String
  | Node.text s => some s
  | Node.elem _ _ [c] => stringOf c
  | Node.elem _ _ [] => none
  | Node.elem _ _ (_ :: _ :: _) => none

/-- `_tag_hasClass` support: the node's class list, taking the `class`
attribute as either a pre-split list or a whitespace-delimited string
(lines 228-235). -/
def classesOf (t : Node) : List String :=
  match getAttr t "class" with
  | some (AttrVal.list l) => l
  | some (AttrVal.str s) => splitWs s
  | none => []

/-- `ScholarArticleParser._tag_hasClass` (lines 228-235): membership of
`klass` in the node's class list. -/
def tag_hasClass (t : Node) (klass : String) : Bool :=
  (classesOf t).contains klass

/-- `ScholarArticleParser._tag_resultsChecker` (lines 241-243): a result
container is a `div` carrying class `gs_r`. -/
def tag_resultsChecker (t : Node) : Bool :=
  (nodeName t == some "div") && tag_hasClass t "gs_r"

/-- The article record.  Modelled from the spec (section 3): the external
`scholar_article.js` is not under `src/`; it is a mapping of named fields with
every field initially unset and `cluster_id` an initially empty ordered
sequence of strings. -/
structure Article where
  title : Option String := none
  url : Option String := none
  url_pdf : Option String := none
  year : Option String := none
  num_citations : Option Int := none
  url_citations : Option String := none
  cluster_id : List String := []
  num_versions : Option Int := none
  url_versions : Option String := none
deriving Repr, DecidableEq

/-- `ScholarArticle()`: a fresh record with all fields unset. -/
def freshArticle : Article := {}

/-- Truthiness of the title field as the source tests it
(`if (this.article['title'])`): set and non-empty. -/
def titleTruthy : Option String → Bool
  | none => false
  | some s => s != ""

/-- `ScholarArticleParser._as_integer` (lines 249-255): `int(obj)` in a
`try` whose catch returns undefined, i.e. a strict integer parse yielding
`none` on failure. -/
def as_integer (s : String) : Option Int := parseIntStrict s

/-- `ScholarArticleParser._path2url` (lines 262-272): a path beginning with
`http://` is returned unchanged; otherwise a leading `/` is prepended when
missing and the site base is prefixed. -/
def path2url (site path : String) : String :=
  if pyStartsWith path "http://" then path
  else if pyStartsWith path "/" then site ++ path
  else site ++ "/" ++ path

/-- `ScholarArticleParser._strip_urlArg` (lines 280-294): split the url at
the first `?` (`url.split('?', 1)`; when no `?` occurs the parts list has one
element, the length test fails and the url is returned unchanged), drop every
`&`-separated segment that starts with `arg + '='`, and rejoin. -/
def strip_urlArg (url arg : String) : String :=
  match pySplit1 url '?' with
  | [pre, q] =>
    pre ++ "?" ++ String.intercalate "&"
      ((splitAllStr q '&').filter (fun p => !(pyStartsWith p (arg ++ "="))))
  | _ => url

/-- `ScholarArticleParser._clean_article` (lines 109-113): when the title is
set and non-empty, strip surrounding whitespace from it. -/
def clean_article (a : Article) : Article :=
  match a.title with
  | some s => if s != "" then { a with title := some (pyStrip s) } else a
  | none => a

/-- The cluster-id building loop (lines 203-208): for each `&`-separated
segment of the query string that starts with `cites=`, append the segment's
characters from index 6 on, each as a separate one-character string, to
`cluster_id`. -/
def clusterPush (a : Article) (args : String) : Article :=
  (splitAllStr args '&').foldl
    (fun a seg =>
      if pyStartsWith seg "cites=" then
        { a with cluster_id := a.cluster_id ++ (seg.data.drop 6).map (fun c => String.mk [c]) }
      else a)
    a

/-- The cited-by branch of `_parse_links` (lines 193-210): set
`num_citations` from the last whitespace token of the anchor text when that
text starts with "Cited by"; set `url_citations` to
`_strip_urlArg('num', _path2url(href))` — with the arguments in the order the
source passes them, so the helper receives `'num'` as its url; then split
`url_citations` at `?` and take index 1 (IndexError when there is no `?`) and
run the cluster-id loop on it. -/
def processCites (site : String) (t : Node) (href : String) (a : Article) :
    Except PyErr Article :=
  let step1 : Except PyErr Article :=
    match stringOf t with
    | some s =>
      if pyStartsWith s "Cited by" then
        match (splitWs s).getLast? with
        | some tok => Except.ok { a with num_citations := as_integer tok }
        | none => Except.error PyErr.indexError
      else Except.ok a
    | none => Except.ok a
  match step1 with
  | Except.error e => Except.error e
  | Except.ok a =>
    let uc := strip_urlArg "num" (path2url site href)
    let a := { a with url_citations := some uc }
    match pySplit1 uc '?' with
    | [_, args] => Except.ok (clusterPush a args)
    | _ => Except.error PyErr.indexError

/-- The versions branch of `_parse_links` (lines 212-217): set
`num_versions` from token 1 of the anchor text when that text starts with
"All "; set `url_versions` to `_strip_urlArg('num', _path2url(href))`, again
with the arguments in the source's order. -/
def processCluster (site : String) (t : Node) (href : String) (a : Article) :
    Except PyErr Article :=
  let step1 : Except PyErr Article :=
    match stringOf t with
    | some s =>
      if pyStartsWith s "All " then
        match (splitWs s).get? 1 with
        | some tok => Except.ok { a with num_versions := as_integer tok }
        | none => Except.error PyErr.indexError
      else Except.ok a
    | none => Except.ok a
  match step1 with
  | Except.error e => Except.error e
  | Except.ok a =>
    Except.ok { a with url_versions := some (strip_urlArg "num" (path2url site href)) }

/-- One iteration of the `_parse_links` loop (lines 184-220): children that
are not named, are not anchors, or lack an href are skipped untouched; an
anchor whose href starts with `/scholar?cites` runs the cited-by branch, one
whose href starts with `/scholar?cluster` runs the versions branch. -/
def processLinkChild (site : String) (t : Node) (a : Article) : Except PyErr Article :=
  match nodeName t with
  | none => Except.ok a
  | some nm =>
    if nm != "a" then Except.ok a
    else
      match getAttrStr t "href" with
      | none => Except.ok a
      | some href =>
        match (if pyStartsWith href "/scholar?cites" then processCites site t href a
               else Except.ok a) with
        | Except.error e => Except.error e
        | Except.ok a =>
          if pyStartsWith href "/scholar?cluster" then processCluster site t href a
          else Except.ok a

/-- The `_parse_links` loop over a list of children; an error aborts the
remaining iterations and propagates. -/
def linksLoop (site : String) : List Node → Article → Except PyErr Article
  | [], a => Except.ok a
  | t :: ts, a =>
    match processLinkChild site t a with
    | Except.error e => Except.error e
    | Except.ok a => linksLoop site ts a

/-- `ScholarArticleParser._parse_links` (lines 183-221). -/
def parse_links (site : String) (span : Node) (a : Article) : Except PyErr Article :=
  linksLoop site (childrenOf span) a

/-- Generic per-child fold used by both `_parse_article` variants: apply `f`
to each child in order, aborting on the first error. -/
def articleLoop (f : Article → Node → Except PyErr Article) :
    Article → List Node → Except PyErr Article
  | a, [] => Except.ok a
  | a, t :: ts =>
    match f a t with
    | Except.error e => Except.error e
    | Except.ok a => articleLoop f a ts

/-- The inner loop of the base `_parse_article` over a `font` tag's children
(lines 167-174): a `span` with class `gs_f1` is handed to `_parse_links`. -/
def fontChild (site : String) (a : Article) (t2 : Node) : Except PyErr Article :=
  match nodeName t2 with
  | none => Except.ok a
  | some nm2 =>
    if nm2 == "span" && tag_hasClass t2 "gs_f1" then parse_links site t2 a
    else Except.ok a

/-- One iteration of the base `_parse_article` loop (lines 153-176): a `div`
with class `gs_rt` holding an `h3` with an `a` yields the title (the link's
concatenated text fragments), the url (the link's href resolved), and
`url_pdf` when the url ends in `.pdf`; a `font` tag is scanned for the links
span. -/
def baseArticleChild (site : String) (a : Article) (t : Node) : Except PyErr Article :=
  match nodeName t with
  | none => Except.ok a
  | some nm =>
    let step1 : Except PyErr Article :=
      if nm == "div" && tag_hasClass t "gs_rt" then
        match tagFind "h3" t with
        | some h3 =>
          match tagFind "a" h3 with
          | some an =>
            let title := String.join (nodeTexts an)
            match getAttrStr an "href" with
            | some href =>
              let url := path2url site href
              let a := { a with title := some title, url := some url }
              Except.ok (if pyEndsWith url ".pdf" then { a with url_pdf := some url } else a)
            | none => Except.error PyErr.keyError
          | none => Except.ok a
        | none => Except.ok a
      else Except.ok a
    match step1 with
    | Except.error e => Except.error e
    | Except.ok a =>
      if nm == "font" then articleLoop (fontChild site) a (childrenOf t)
      else Except.ok a

/-- `ScholarArticleParser._parse_article` (lines 150-177): a fresh record
populated by scanning the container's direct children. -/
def base_parse_article (site : String) (div : Node) : Except PyErr Article :=
  articleLoop (baseArticleChild site) freshArticle (childrenOf div)

/-- The parser-instance fields the base constructor establishes (lines
59-64).  `year` holds the compiled year pattern; `year_re` is the field the
subclass's `_parse_article` reads (line 36), which no statement in the source
ever assigns, so its value space is empty. -/
structure ParserFields where
  site : String
  year : Option String
  year_re : Option Empty

/-- The pattern string the base constructor passes to `new RegExp` (line 63).
The source writes the literal `\b(?:20|19)\d{2}\b` in a plain (non-raw)
string, so the two `\b` escapes denote the backspace character and `\d`
collapses to the letter d: the stored pattern could only ever match a year
flanked by literal backspace characters. -/
def yearPatternLiteral : String := "\x08(?:20|19)d{2}\x08"

/-- The parser state after the base constructor has run with the given site
(lines 59-64): the pattern lands in `year`, and `year_re` stays unset. -/
def baseParserFields (site : String) : ParserFields :=
  { site := site, year := some yearPatternLiteral, year_re := none }

/-- One iteration of `ScholarArticleParser_120201._parse_article` (lines
20-43): an `h3` with class `gs_rt` holding an `a` yields title/url/url_pdf —
with line 27's extra `title.join('')`, which joins the empty iterable and
leaves the title empty; a `div` with class `gs_a` reads `this.year_re`, a
field never assigned, raising AttributeError; a `div` with class `gs_f1` is
handed to `_parse_links`. -/
def subArticleChild (fields : ParserFields) (a : Article) (t : Node) : Except PyErr Article :=
  match nodeName t with
  | none => Except.ok a
  | some nm =>
    let step1 : Except PyErr Article :=
      if nm == "h3" && tag_hasClass t "gs_rt" then
        match tagFind "a" t with
        | some an =>
          let title := String.join (nodeTexts an)
          let title := pyStrJoin title ""
          match getAttrStr an "href" with
          | some href =>
            let url := path2url fields.site href
            let a := { a with title := some title, url := some url }
            Except.ok (if pyEndsWith url ".pdf" then { a with url_pdf := some url } else a)
          | none => Except.error PyErr.keyError
        | none => Except.ok a
      else Except.ok a
    match step1 with
    | Except.error e => Except.error e
    | Except.ok a =>
      let step2 : Except PyErr Article :=
        if nm == "div" && tag_hasClass t "gs_a" then
          match fields.year_re with
          | none => Except.error PyErr.attributeError
          | some e => e.elim
        else Except.ok a
      match step2 with
      | Except.error e => Except.error e
      | Except.ok a =>
        if nm == "div" && tag_hasClass t "gs_f1" then parse_links fields.site t a
        else Except.ok a

/-- `ScholarArticleParser_120201._parse_article` (lines 17-44). -/
def sub_parse_article (fields : ParserFields) (div : Node) : Except PyErr Article :=
  articleLoop (subArticleChild fields) freshArticle (childrenOf div)

/-- The predicate `_parse_globals` passes to the soup's `find` (lines
119-123): a `div` whose `id` attribute is `gs_ab_md`. -/
def globalsDivChecker (t : Node) : Bool :=
  (nodeName t == some "div") && (getAttrStr t "id" == some "gs_ab_md")

/-- The body of the `try` in `_parse_globals` (lines 130-134): token 1 of the
whitespace-split first text fragment, then `split(',', '')` — which raises
TypeError because the limit is a string — then `int` of the split result. -/
def globalsAttempt (t0 : String) : Except PyErr Int :=
  match (splitWs t0).get? 1 with
  | none => Except.error PyErr.indexError
  | some tok =>
    match pySplitLimited tok ',' (PyVal.str "") with
    | Except.error e => Except.error e
    | Except.ok pieces =>
      match pyIntOfList pieces with
      | Except.error e => Except.error e
      | Except.ok n => Except.ok n

/-- `ScholarArticleParser._parse_globals` (lines 118-144), as the reported
count: `none` when the stats node is absent, has no text, or the numeric
attempt raises (the catch swallows every error). -/
def parse_globals (root : Node) : Option Int :=
  match findFirstNode globalsDivChecker root with
  | none => none
  | some tag =>
    match nodeTexts tag with
    | [] => none
    | t0 :: _ => exceptToOption (globalsAttempt t0)

/-- The outcome of one `parse` call: the reported global count, the records
handed to `handle_article` in order, and the error that aborted the container
loop, if any. -/
structure ParseOutcome where
  numResults : Option Int
  articles : List Article
  err : Option PyErr
deriving Repr, DecidableEq

/-- The container loop of `parse` (lines 95-101): extract, clean, and emit
when the cleaned title is non-empty; an extraction error aborts the remaining
containers. -/
def parseLoop (pa : Node → Except PyErr Article) :
    List Node → List Article × Option PyErr
  | [] => ([], none)
  | d :: ds =>
    match pa d with
    | Except.error e => ([], some e)
    | Except.ok a =>
      let a2 := clean_article a
      let rest := parseLoop pa ds
      if titleTruthy a2.title then (a2 :: rest.1, rest.2) else rest

/-- `ScholarArticleParser.parse` (lines 88-102) over an already-built soup
tree, parameterised by the active layout's container extraction. -/
def parseWith (pa : Node → Except PyErr Article) (root : Node) : ParseOutcome :=
  let r := parseLoop pa (findAllNodes tag_resultsChecker root)
  { numResults := parse_globals root, articles := r.1, err := r.2 }

/-- `parse` with the base class's `_parse_article`. -/
def parseBase (site : String) (root : Node) : ParseOutcome :=
  parseWith (base_parse_article site) root

/-- `parse` with the 120201 subclass's `_parse_article`. -/
def parse120201 (fields : ParserFields) (root : Node) : ParseOutcome :=
  parseWith (sub_parse_article fields) root

/-- Whether a query segment is a `name=value` segment whose name — the text
before its first `=` — equals `arg`.  Modelled from the spec's words for
`strip-query-arg` ("removes every `name=value` segment whose name equals
`arg-name`"). -/
def segmentNamed (seg arg : String) : Bool :=
  match chSplitFirst '=' seg.data with
  | none => false
  | some (nm, _) => nm == arg.data

/-- Modelled from the spec: `strip-query-arg(url, arg-name)` as section 4.3
words it — split `url` on its first `?`; with no query part return `url`
unchanged; otherwise remove every `name=value` segment whose name equals
`arg-name` and rejoin the remaining segments with `&` in their original
order. -/
def specStripQueryArg (url arg : String) : String :=
  match pySplit1 url '?' with
  | [pre, q] =>
    pre ++ "?" ++ String.intercalate "&"
      ((splitAllStr q '&').filter (fun p => !(segmentNamed p arg)))
  | _ => url

/-- Modelled from the spec: `resolve-url(site, path)` reading "ensures exactly
one leading `/`" literally — a non-absolute path is given exactly one leading
slash (extra leading slashes collapsed) before the site base is prepended. -/
def specResolveUrlExactlyOne (site path : String) : String :=
  if pyStartsWith path "http://" then path
  else site ++ "/" ++ String.mk (path.data.dropWhile (fun c => c == '/'))

/-- Modelled from the spec: global-stats extraction as section 4.1 words it —
first text fragment of the stats node, whitespace-split, second token, comma
group separators stripped, parsed as an integer and reported; `none` on any
failure. -/
def specParseGlobals (root : Node) : Option Int :=
  match findFirstNode globalsDivChecker root with
  | none => none
  | some tag =>
    match nodeTexts tag with
    | [] => none
    | t0 :: _ =>
      match (splitWs t0).get? 1 with
      | none => none
      | some tok => parseIntStrict (String.mk (tok.data.filter (fun c => c != ',')))

/-- The cited-by anchor of claim C2's example: href
`/scholar?cites=12345&num=20`, text "Cited by 42". -/
def c2Anchor : Node :=
  Node.elem "a" [("href", AttrVal.str "/scholar?cites=12345&num=20")] [Node.text "Cited by 42"]

/-- A links container holding `c2Anchor`. -/
def c2Span : Node := Node.elem "span" [("class", AttrVal.str "gs_f1")] [c2Anchor]

/-- A cited-by anchor with cluster value 777, for claim C5. -/
def c5Anchor : Node :=
  Node.elem "a" [("href", AttrVal.str "/scholar?cites=777&num=3")] [Node.text "Cited by 9"]

/-- A links container holding `c5Anchor`. -/
def c5Span : Node := Node.elem "span" [("class", AttrVal.str "gs_f1")] [c5Anchor]

/-- A page whose global-stats node reads "About 1,234 results (0.05 sec)". -/
def c6Doc : Node :=
  Node.elem "html" []
    [Node.elem "div" [("id", AttrVal.str "gs_ab_md")]
      [Node.text "About 1,234 results (0.05 sec)", Node.elem "b" [] [Node.text "bold"]]]

/-- A result container holding the byline of claim C7's example. -/
def c7Div : Node :=
  Node.elem "div" [("class", AttrVal.str "gs_r")]
    [Node.elem "div" [("class", AttrVal.str "gs_a")]
      [Node.text "J Smith, A Jones - Journal of X, 2019 - publisher.com"]]

/-- A result container whose only content is a title link (base layout:
`div.gs_rt > h3 > a`). -/
def titleDivBase (href txt : String) : Node :=
  Node.elem "div" [("class", AttrVal.str "gs_r")]
    [Node.elem "div" [("class", AttrVal.str "gs_rt")]
      [Node.elem "h3" [] [Node.elem "a" [("href", AttrVal.str href)] [Node.text txt]]]]

/-- A result container whose only content is a title link (120201 layout:
`h3.gs_rt > a`). -/
def titleDivSub (href txt : String) : Node :=
  Node.elem "div" [("class", AttrVal.str "gs_r")]
    [Node.elem "h3" [("class", AttrVal.str "gs_rt")]
      [Node.elem "a" [("href", AttrVal.str href)] [Node.text txt]]]

/-- A result container yielding the title " Nice Paper " and a pdf url. -/
def c1GoodDiv : Node := titleDivBase "/x.pdf" " Nice Paper "

/-- The record `c1GoodDiv` extracts to (before cleanup). -/
def c1GoodArticle : Article :=
  { freshArticle with
      title := some " Nice Paper ", url := some "http://s/x.pdf",
      url_pdf := some "http://s/x.pdf" }

/-- A result container with no title element at all. -/
def c1EmptyDiv : Node := Node.elem "div" [("class", AttrVal.str "gs_r")] []

/-- A document with one emittable container and one title-less container. -/
def c1WitnessDoc : Node := Node.elem "html" [] [c1GoodDiv, c1EmptyDiv]

/-- A result container holding only a cited-by link (no title). -/
def c1BadDiv : Node :=
  Node.elem "div" [("class", AttrVal.str "gs_r")]
    [Node.elem "font" []
      [Node.elem "span" [("class", AttrVal.str "gs_f1")]
        [Node.elem "a" [("href", AttrVal.str "/scholar?cites=42")] [Node.text "Cited by 7"]]]]

/-- A document whose first container raises during extraction and whose
second would yield an emittable record. -/
def c1BadDoc : Node := Node.elem "html" [] [c1BadDiv, c1GoodDiv]

theorem strDataAppend (a b : String) : (a ++ b).data = a.data ++ b.data := rfl

/-- A prefix of a list is a prefix of any extension of it. -/
theorem chIsPrefixOf_append (p : List Char) :
    ∀ l t : List Char, p.isPrefixOf l = true → p.isPrefixOf (l ++ t) = true := by
  induction p with
  | nil => intro l t _; simp [List.isPrefixOf]
  | cons a as ih =>
    intro l t h
    cases l with
    | nil => simp [List.isPrefixOf] at h
    | cons b bs =>
      simp only [List.cons_append, List.isPrefixOf, Bool.and_eq_true] at h ⊢
      exact ⟨h.1, ih bs t h.2⟩

/-- `startswith` is preserved by appending to the right. -/
theorem pyStartsWith_append (s t pre : String) (h : pyStartsWith s pre = true) :
    pyStartsWith (s ++ t) pre = true := by
  unfold pyStartsWith at h ⊢
  rw [strDataAppend]
  exact chIsPrefixOf_append pre.data s.data t.data h

/-- Filtering with pointwise-equal predicates gives equal lists. -/
theorem listFilterCongr {α : Type} (p q : α → Bool) :
    ∀ l : List α, (∀ x ∈ l, p x = q x) → l.filter p = l.filter q := by
  intro l h
  induction l with
  | nil => rfl
  | cons x xs ih =>
    have hx := h x (List.mem_cons_self x xs)
    have ihx := ih (fun y hy => h y (List.mem_cons_of_mem x hy))
    simp only [List.filter_cons, hx, ihx]

/-- `isPrefixOf` in terms of list decomposition. -/
theorem chIsPrefixOf_iff (p : List Char) :
    ∀ l : List Char, (p.isPrefixOf l = true ↔ ∃ t, l = p ++ t) := by
  induction p with
  | nil => intro l; simp [List.isPrefixOf]
  | cons a as ih =>
    intro l
    cases l with
    | nil =>
      constructor
      · intro h; simp [List.isPrefixOf] at h
      · rintro ⟨t, ht⟩; exact absurd ht (by simp)
    | cons b bs =>
      constructor
      · intro h
        have h' : (a == b) = true ∧ as.isPrefixOf bs = true := by
          simpa [List.isPrefixOf, Bool.and_eq_true] using h
        obtain ⟨t, ht⟩ := (ih bs).mp h'.2
        refine ⟨t, ?_⟩
        have hab : a = b := by simpa using h'.1
        rw [List.cons_append, ← hab, ht]
      · rintro ⟨t, ht⟩
        rw [List.cons_append] at ht
        injection ht with h1 h2
        subst h1
        have hpre : as.isPrefixOf bs = true := (ih bs).mpr ⟨t, h2⟩
        simp [List.isPrefixOf, hpre]

/-- A list splits at `sep` exactly when `sep` occurs in it. -/
theorem chSplitFirst_eq_none_iff (sep : Char) :
    ∀ l : List Char, (chSplitFirst sep l = none ↔ sep ∉ l) := by
  intro l
  induction l with
  | nil => simp [chSplitFirst]
  | cons c cs ih =>
    by_cases hc : c = sep
    · subst hc; simp [chSplitFirst]
    · have hc' : (c == sep) = false := by simp [hc]
      simp only [chSplitFirst, hc', Bool.false_eq_true, if_false, List.mem_cons]
      cases hsp : chSplitFirst sep cs with
      | none =>
        rw [hsp] at ih
        simp only [true_iff] at ih
        simp [Ne.symm hc, ih]
      | some pr =>
        rw [hsp] at ih
        obtain ⟨pre, post⟩ := pr
        have hmem : sep ∈ cs := by
          by_contra hnm
          exact absurd (ih.mpr hnm) (by simp)
        constructor
        · intro h; exact absurd h (by simp)
        · intro h; exact absurd (Or.inr hmem) h

/-- What a successful `chSplitFirst` means: the list decomposes around the
first occurrence of `sep`, and the part before it is `sep`-free. -/
theorem chSplitFirst_eq_some (sep : Char) :
    ∀ l pre post : List Char, chSplitFirst sep l = some (pre, post) →
      l = pre ++ sep :: post ∧ sep ∉ pre := by
  intro l
  induction l with
  | nil => intro pre post h; simp [chSplitFirst] at h
  | cons c cs ih =>
    intro pre post h
    by_cases hc : c = sep
    · subst hc
      simp only [chSplitFirst, beq_self_eq_true, if_true, Option.some.injEq, Prod.mk.injEq] at h
      rcases h with ⟨rfl, rfl⟩
      simp
    · have hc' : (c == sep) = false := by simp [hc]
      simp only [chSplitFirst, hc', Bool.false_eq_true, if_false] at h
      cases hsp : chSplitFirst sep cs with
      | none => rw [hsp] at h; simp at h
      | some pr =>
        obtain ⟨pre', post'⟩ := pr
        rw [hsp] at h
        simp only [Option.some.injEq, Prod.mk.injEq] at h
        obtain ⟨rfl, rfl⟩ := h
        obtain ⟨hdec, hnm⟩ := ih pre' post' hsp
        refine ⟨by rw [hdec]; rfl, ?_⟩
        intro hm
        rcases List.mem_cons.mp hm with h1 | h1
        · exact hc h1.symm
        · exact hnm h1

/-- Splitting at the first occurrence of a separator is unambiguous: two
decompositions around a `sep` that is absent from both heads agree on the
head. -/
theorem sepSplit_unique (sep : Char) :
    ∀ x y u v : List Char, x ++ sep :: u = y ++ sep :: v → sep ∉ x → sep ∉ y → x = y := by
  intro x
  induction x with
  | nil =>
    intro y u v h hx hy
    cases y with
    | nil => rfl
    | cons e es =>
      simp only [List.nil_append, List.cons_append, List.cons.injEq] at h
      exact absurd (h.1 ▸ List.mem_cons_self e es) (h.1 ▸ hy)
  | cons d ds ih =>
    intro y u v h hx hy
    cases y with
    | nil =>
      simp only [List.nil_append, List.cons_append, List.cons.injEq] at h
      exact absurd (List.mem_cons_self d ds) (fun hm => hx (h.1 ▸ hm))
    | cons e es =>
      simp only [List.cons_append, List.cons.injEq] at h
      have hds : ds = es :=
        ih es u v h.2 (fun hm => hx (List.mem_cons_of_mem d hm))
          (fun hm => hy (List.mem_cons_of_mem e hm))
      rw [h.1, hds]

/-- For an argument name free of `=`, the source's prefix test
`seg.startswith(arg + '=')` agrees with the spec's "segment whose name equals
the argument name". -/
theorem chIsPrefixOf_eq_segmentNamed (a p : List Char) (ha : chSplitFirst '=' a = none) :
    List.isPrefixOf (a ++ ['=']) p =
      (match chSplitFirst '=' p with
       | none => false
       | some (nm, _) => nm == a) := by
  have hamem : '=' ∉ a := (chSplitFirst_eq_none_iff '=' a).mp ha
  cases hsp : chSplitFirst '=' p with
  | none =>
    have hpmem : '=' ∉ p := (chSplitFirst_eq_none_iff '=' p).mp hsp
    cases hL : List.isPrefixOf (a ++ ['=']) p with
    | false => rfl
    | true =>
      rcases (chIsPrefixOf_iff (a ++ ['=']) p).mp hL with ⟨t, rfl⟩
      exact absurd (by simp : '=' ∈ a ++ ['='] ++ t) hpmem
  | some pr =>
    obtain ⟨nm, post⟩ := pr
    obtain ⟨rfl, hnm⟩ := chSplitFirst_eq_some '=' p nm post hsp
    by_cases hna : nm = a
    · subst hna
      have hL : List.isPrefixOf (nm ++ ['=']) (nm ++ '=' :: post) = true :=
        (chIsPrefixOf_iff (nm ++ ['=']) (nm ++ '=' :: post)).mpr ⟨post, by simp⟩
      simp [hL]
    · have hL : List.isPrefixOf (a ++ ['=']) (nm ++ '=' :: post) = false := by
        cases hL' : List.isPrefixOf (a ++ ['=']) (nm ++ '=' :: post) with
        | false => rfl
        | true =>
          rcases (chIsPrefixOf_iff (a ++ ['=']) (nm ++ '=' :: post)).mp hL' with ⟨t, ht⟩
          have heq : nm ++ '=' :: post = a ++ '=' :: t := by simpa using ht
          exact absurd (sepSplit_unique '=' nm a post t heq hnm hamem) hna
      simp [hL, hna]

/-- String-level form of the previous lemma. -/
theorem pyStartsWithArgEq_eq_segmentNamed (p arg : String)
    (ha : chSplitFirst '=' arg.data = none) :
    pyStartsWith p (arg ++ "=") = segmentNamed p arg := by
  unfold pyStartsWith segmentNamed
  have hdata : (arg ++ "=").data = arg.data ++ ['='] := rfl
  rw [hdata]
  exact chIsPrefixOf_eq_segmentNamed arg.data p.data ha

/-- C3.  For every url and every argument name (a name holds no `=`),
`_strip_urlArg` splits the url on its first `?`, returns it unchanged when
there is no query part, and otherwise removes exactly the `name=value`
segments whose name equals the argument name, rejoining the rest with `&` in
their original order — i.e. it agrees with the spec's `strip-query-arg`; in
particular the spec's example holds. -/
theorem c3_strip_urlArg_matches_spec :
    (∀ url arg : String, chContains '=' arg.data = false →
        strip_urlArg url arg = specStripQueryArg url arg) ∧
    strip_urlArg "https://x/y?num=5&cites=9999" "num" = "https://x/y?cites=9999" := by
  constructor
  · intro url arg h
    have ha : chSplitFirst '=' arg.data = none := by
      unfold chContains at h
      cases hsp : chSplitFirst '=' arg.data with
      | none => rfl
      | some pr => rw [hsp] at h; simp [Option.isSome] at h
    unfold strip_urlArg specStripQueryArg
    cases hq : pySplit1 url '?' with
    | nil => rfl
    | cons x xs =>
      cases xs with
      | nil => rfl
      | cons y ys =>
        cases ys with
        | cons z zs => rfl
        | nil =>
          have hfilt :
              (splitAllStr y '&').filter (fun p => !(pyStartsWith p (arg ++ "="))) =
              (splitAllStr y '&').filter (fun p => !(segmentNamed p arg)) := by
            apply listFilterCongr
            intro w _
            rw [pyStartsWithArgEq_eq_segmentNamed w arg ha]
          simp only [hfilt]
  · rfl

/-- Closed witness for C3 at the spec's own example. -/
theorem c3_witness :
    chContains '=' ("num" : String).data = false ∧
    strip_urlArg "https://x/y?num=5&cites=9999" "num" =
      specStripQueryArg "https://x/y?num=5&cites=9999" "num" :=
  ⟨by decide, c3_strip_urlArg_matches_spec.1 "https://x/y?num=5&cites=9999" "num" (by decide)⟩

/-- C2.  On the claim's example anchor the code diverges from the claim: the
source passes `_strip_urlArg` its arguments swapped (line 199), so the helper
receives the literal `'num'` as the url and returns it unchanged —
`url_citations` becomes `"num"` instead of the stripped absolute URL (second
conjunct shows what the helper returns with the roles the claim assumes) —
and the cluster-id step then splits `"num"` on `?`, indexes the missing query
part and raises IndexError, aborting link parsing.  The numeric part of the
claim does hold up to the crash: the last whitespace token "42" parses to 42. -/
theorem c2_cited_by_code_bug :
    strip_urlArg "num" (path2url "https://scholar.google.com" "/scholar?cites=12345&num=20") =
      "num" ∧
    strip_urlArg (path2url "https://scholar.google.com" "/scholar?cites=12345&num=20") "num" =
      "https://scholar.google.com/scholar?cites=12345" ∧
    (splitWs "Cited by 42").getLast? = some "42" ∧
    as_integer "42" = some 42 ∧
    parse_links "https://scholar.google.com" c2Span freshArticle =
      Except.error PyErr.indexError := by
  refine ⟨rfl, rfl, rfl, rfl, rfl⟩

/-- C5.  Link parsing never populates `cluster_id`: on a cited-by anchor the
swapped `_strip_urlArg` call makes `url_citations` the literal `"num"`, and
the extraction of the `cites=` value from it raises IndexError (first two
conjuncts); the character-appending loop itself (lines 203-208) would
produce the claimed character sequence were it ever reached with the real
query string (third conjunct). -/
theorem c5_cluster_id_code_bug :
    parse_links "https://scholar.example" c5Span freshArticle =
      Except.error PyErr.indexError ∧
    strip_urlArg "num" (path2url "https://scholar.example" "/scholar?cites=777&num=3") = "num" ∧
    (clusterPush freshArticle "cites=777").cluster_id = ["7", "7", "7"] := by
  refine ⟨rfl, rfl, rfl⟩

/-- C6.  The global result count is never reported for any page: the comma
handling step calls `split(',', '')` with a string limit (line 132), which
raises, and the surrounding catch swallows every error — so `_parse_globals`
yields no count on every input.  On the concrete stats text
"About 1,234 results (0.05 sec)" the spec's reading of the extraction would
report 1234. -/
theorem c6_globals_never_reported :
    (∀ root : Node, parse_globals root = none) ∧ specParseGlobals c6Doc = some 1234 := by
  constructor
  · intro root
    cases hf : findFirstNode globalsDivChecker root with
    | none => simp [parse_globals, hf]
    | some tag =>
      cases ht : nodeTexts tag with
      | nil => simp [parse_globals, hf, ht]
      | cons t0 ts =>
        have hga : exceptToOption (globalsAttempt t0) = none := by
          unfold globalsAttempt
          cases hg : (splitWs t0).get? 1 with
          | none => rfl
          | some tok => rfl
        simp [parse_globals, hf, ht, hga]
  · rfl

/-- C7.  The base constructor stores the compiled year pattern in the field
`year` (line 63) and leaves `year_re` — the field the subclass's byline step
reads (line 36) — unset, so scanning the claim's example byline raises
AttributeError instead of setting `year` to "2019". -/
theorem c7_year_field_code_bug :
    (baseParserFields "http://s").year_re = none ∧
    (baseParserFields "http://s").year = some yearPatternLiteral ∧
    sub_parse_article (baseParserFields "http://s") c7Div =
      Except.error PyErr.attributeError := by
  refine ⟨rfl, rfl, rfl⟩

/-- C4 counterexample.  `_path2url` does not ensure exactly one leading slash:
on the path `"//x"` it keeps both slashes, while the claim's reading yields a
single one, and the two results differ. -/
theorem c4_counterexample :
    path2url "https://example.com" "//x" = "https://example.com//x" ∧
    specResolveUrlExactlyOne "https://example.com" "//x" = "https://example.com/x" ∧
    ("https://example.com//x" : String) ≠ "https://example.com/x" := by
  refine ⟨rfl, rfl, by decide⟩

/-- C4 amended.  `_path2url` returns a path beginning with `http://`
unchanged; otherwise it prepends `/` exactly when the path lacks a leading
`/` (so at least one leading slash, existing slashes untouched) and prefixes
the site base; the claim's two examples hold. -/
theorem c4_amended_resolve_url :
    (∀ site path : String, pyStartsWith path "http://" = true →
        path2url site path = path) ∧
    (∀ site path : String, pyStartsWith path "http://" = false →
        pyStartsWith path "/" = true → path2url site path = site ++ path) ∧
    (∀ site path : String, pyStartsWith path "http://" = false →
        pyStartsWith path "/" = false → path2url site path = site ++ "/" ++ path) ∧
    path2url "https://example.com" "http://other.com/x" = "http://other.com/x" ∧
    path2url "https://example.com" "path" = "https://example.com/path" := by
  refine ⟨?_, ?_, ?_, rfl, rfl⟩
  · intro site path h; simp [path2url, h]
  · intro site path h1 h2; simp [path2url, h1, h2]
  · intro site path h1 h2; simp [path2url, h1, h2]

/-- Closed witness for the amended C4. -/
theorem c4_witness :
    pyStartsWith "http://a" "http://" = true ∧
    path2url "https://example.com" "http://a" = "http://a" :=
  ⟨by decide, c4_amended_resolve_url.1 "https://example.com" "http://a" (by decide)⟩

/-- C9.  `_path2url` is idempotent when the configured site base itself
begins with `http://` (as the default `SCHOLAR_SITE` does): a second
application leaves the result unchanged, because an already-absolute result
is returned as is and a prefixed result starts with the site base. -/
theorem c9_path2url_idempotent (site path : String)
    (h : pyStartsWith site "http://" = true) :
    path2url site (path2url site path) = path2url site path := by
  by_cases hp : pyStartsWith path "http://" = true
  · simp [path2url, hp]
  · have hp' : pyStartsWith path "http://" = false := by
      cases hq : pyStartsWith path "http://"
      · rfl
      · exact absurd hq hp
    by_cases hs : pyStartsWith path "/" = true
    · have hres : path2url site path = site ++ path := by simp [path2url, hp', hs]
      rw [hres]
      have habs : pyStartsWith (site ++ path) "http://" = true :=
        pyStartsWith_append site path "http://" h
      simp [path2url, habs]
    · have hs' : pyStartsWith path "/" = false := by
        cases hq : pyStartsWith path "/"
        · rfl
        · exact absurd hq hs
      have hres : path2url site path = site ++ "/" ++ path := by simp [path2url, hp', hs']
      rw [hres]
      have habs : pyStartsWith (site ++ "/" ++ path) "http://" = true := by
        first
        | exact pyStartsWith_append site ("/" ++ path) "http://" h
        | exact pyStartsWith_append (site ++ "/") path "http://"
            (pyStartsWith_append site "/" "http://" h)
      simp [path2url, habs]

/-- Closed witness for C9. -/
theorem c9_witness :
    pyStartsWith "http://scholar.google.com" "http://" = true ∧
    path2url "http://scholar.google.com" (path2url "http://scholar.google.com" "paper") =
      path2url "http://scholar.google.com" "paper" :=
  ⟨by decide, c9_path2url_idempotent "http://scholar.google.com" "paper" (by decide)⟩

/-- C10.  During link parsing, a child that is not an anchor, or is an anchor
without an href, is skipped entirely: the record is returned untouched and no
error is raised. -/
theorem c10_non_anchor_skipped (site : String) (a : Article) (t : Node)
    (h : nodeName t ≠ some "a" ∨ getAttrStr t "href" = none) :
    processLinkChild site t a = Except.ok a := by
  unfold processLinkChild
  cases hn : nodeName t with
  | none => rfl
  | some nm =>
    by_cases hnm : nm = "a"
    · subst hnm
      have hhref : getAttrStr t "href" = none := by
        rcases h with h | h
        · exact absurd hn h
        · exact h
      simp [hhref]
    · have hne : (nm != "a") = true := by simp [hnm]
      simp [hne]

/-- Closed witness for C10: a bold tag inside the links container leaves the
record untouched. -/
theorem c10_witness :
    (nodeName (Node.elem "b" [] [Node.text "x"]) ≠ some "a" ∨
      getAttrStr (Node.elem "b" [] [Node.text "x"]) "href" = none) ∧
    processLinkChild "http://s" (Node.elem "b" [] [Node.text "x"]) freshArticle =
      Except.ok freshArticle :=
  ⟨Or.inl (by decide),
    c10_non_anchor_skipped "http://s" freshArticle (Node.elem "b" [] [Node.text "x"])
      (Or.inl (by decide))⟩

/-- When every container extracts successfully, the container loop emits
exactly the cleaned records with a non-empty title, in document order, and no
error occurs. -/
theorem parseLoop_all_ok (pa : Node → Except PyErr Article) :
    ∀ ds : List Node, (∀ d ∈ ds, exceptIsOk (pa d) = true) →
      parseLoop pa ds =
        (((ds.filterMap (fun d => exceptToOption (pa d))).map clean_article).filter
            (fun a => titleTruthy a.title),
          none) := by
  intro ds
  induction ds with
  | nil => intro h; rfl
  | cons d ds ih =>
    intro h
    have hd := h d (List.mem_cons_self d ds)
    have htl : ∀ x ∈ ds, exceptIsOk (pa x) = true :=
      fun x hx => h x (List.mem_cons_of_mem d hx)
    cases hpa : pa d with
    | error e => rw [hpa] at hd; simp [exceptIsOk] at hd
    | ok a =>
      have ihe := ih htl
      simp only [parseLoop, hpa, List.filterMap_cons, exceptToOption, List.map_cons,
        List.filter_cons, ihe]
      cases htt : titleTruthy (clean_article a).title with
      | true => simp [htt]
      | false => simp [htt]

/-- C1 (amended).  For every document all of whose result containers extract
without raising, `parse` reports no error and hands the callback exactly
those cleaned records whose title is non-empty, in document order — the
title-presence gate of lines 97-100. -/
theorem c1_title_gate (site : String) (root : Node)
    (h : ∀ d ∈ findAllNodes tag_resultsChecker root,
        exceptIsOk (base_parse_article site d) = true) :
    (parseBase site root).err = none ∧
    (parseBase site root).articles =
      (((findAllNodes tag_resultsChecker root).filterMap
            (fun d => exceptToOption (base_parse_article site d))).map clean_article).filter
        (fun a => titleTruthy a.title) := by
  have hl := parseLoop_all_ok (base_parse_article site) (findAllNodes tag_resultsChecker root) h
  unfold parseBase parseWith
  rw [hl]
  exact ⟨rfl, rfl⟩

/-- Closed witness for C1 on a two-container document: the titled container
is emitted (title cleaned), the title-less one is silently skipped. -/
theorem c1_witness :
    (∀ d ∈ findAllNodes tag_resultsChecker c1WitnessDoc,
        exceptIsOk (base_parse_article "http://s" d) = true) ∧
    (parseBase "http://s" c1WitnessDoc).err = none ∧
    (parseBase "http://s" c1WitnessDoc).articles =
      (((findAllNodes tag_resultsChecker c1WitnessDoc).filterMap
            (fun d => exceptToOption (base_parse_article "http://s" d))).map clean_article).filter
        (fun a => titleTruthy a.title) :=
  ⟨by decide,
    (c1_title_gate "http://s" c1WitnessDoc (by decide)).1,
    (c1_title_gate "http://s" c1WitnessDoc (by decide)).2⟩

/-- C1 counterexample.  As stated the claim fails: on `c1BadDoc` the first
container's extraction raises (cited-by link, see C2), so `parse` aborts with
an error and emits nothing — although the document's second container
extracts to a record whose cleaned title is non-empty, which the claim says
must reach the callback, and although the first container yields no title,
which the claim says is skipped "with no error". -/
theorem c1_counterexample :
    (parseBase "http://s" c1BadDoc).articles = [] ∧
    (parseBase "http://s" c1BadDoc).err = some PyErr.indexError ∧
    (findAllNodes tag_resultsChecker c1BadDoc).length = 2 ∧
    (findAllNodes tag_resultsChecker c1BadDoc).get? 1 = some c1GoodDiv ∧
    base_parse_article "http://s" c1GoodDiv = Except.ok c1GoodArticle ∧
    titleTruthy (clean_article c1GoodArticle).title = true := by
  refine ⟨rfl, rfl, rfl, rfl, rfl, rfl⟩

/-- C8.  For a result container holding one title link, the extracted record
resolves the link's href into `url`, and `url_pdf` equals that same resolved
value exactly when it ends in `.pdf`, staying unset otherwise — in the base
layout and in the 120201 layout alike (whose title text, due to line 27's
re-join, is always empty). -/
theorem c8_title_url_pdf (site href txt : String) :
    base_parse_article site (titleDivBase href txt) =
      Except.ok { freshArticle with
        title := some txt,
        url := some (path2url site href),
        url_pdf := if pyEndsWith (path2url site href) ".pdf" then some (path2url site href)
                   else none } ∧
    sub_parse_article (baseParserFields site) (titleDivSub href txt) =
      Except.ok { freshArticle with
        title := some "",
        url := some (path2url site href),
        url_pdf := if pyEndsWith (path2url site href) ".pdf" then some (path2url site href)
                   else none } := by
  constructor
  · have h1 : base_parse_article site (titleDivBase href txt) =
        Except.ok (if pyEndsWith (path2url site href) ".pdf" then
          { freshArticle with
            title := some txt,
            url := some (path2url site href),
            url_pdf := some (path2url site href) }
          else { freshArticle with title := some txt, url := some (path2url site href) }) := rfl
    rw [h1]
    cases hpdf : pyEndsWith (path2url site href) ".pdf" with
    | true => simp [hpdf]
    | false => simp [hpdf, freshArticle]
  · have h2 : sub_parse_article (baseParserFields site) (titleDivSub href txt) =
        Except.ok (if pyEndsWith (path2url site href) ".pdf" then
          { freshArticle with
            title := some "",
            url := some (path2url site href),
            url_pdf := some (path2url site href) }
          else { freshArticle with title := some "", url := some (path2url site href) }) := rfl
    rw [h2]
    cases hpdf : pyEndsWith (path2url site href) ".pdf" with
    | true => simp [hpdf]
    | false => simp [hpdf, freshArticle]
